import Mathlib

/-!
Verification development for the Bluesky community-notes bot (`src/server.ts`).

The pure parts of the program (cosine similarity, the greedy clustering loop,
note-text truncation) are embedded directly as Lean functions.  The stateful
parts (the SQLite tables, the publication pipeline of `processSimilarComments`
and of the `/process-post` route) are embedded as explicit state-passing
functions over a `Store` record; the external capabilities (Bluesky login,
thread queries, publishing, OpenAI synthesis) are modelled as oracle inputs
supplied per invocation, with the remote platform's reply state threaded as a
`world : List String` (the posts currently carrying a reply from this account).

JavaScript floating-point numbers are modelled as exact rationals; the only
float behaviour the verified claims depend on is the exact propagation of
`NaN` (tracked via `Option`) and the fact that `NaN >= t` is `false`.
-/

namespace CommunityNotes

/-- Rational multiplication, written out on numerator and denominator so that
closed computations reduce in the kernel (the library's `Rat.mul` is
irreducible); `qmul_eq` proves it is ordinary multiplication on `ℚ`. -/
def qmul (a b : ℚ) : ℚ := Rat.divInt (a.num * b.num) (a.den * b.den)

/-- Rational addition, written out on numerator and denominator so that closed
computations reduce in the kernel; `qadd_eq` proves it is ordinary addition. -/
def qadd (a b : ℚ) : ℚ := Rat.divInt (a.num * b.den + b.num * a.den) (a.den * b.den)

theorem qmul_eq (a b : ℚ) : qmul a b = a * b := by
  rw [qmul, Rat.divInt_eq_div]
  conv_rhs => rw [← Rat.num_div_den a, ← Rat.num_div_den b]
  push_cast
  rw [div_mul_div_comm]

theorem qadd_eq (a b : ℚ) : qadd a b = a + b := by
  rw [qadd, Rat.divInt_eq_div]
  conv_rhs => rw [← Rat.num_div_den a, ← Rat.num_div_den b]
  push_cast
  rw [div_add_div _ _ (by exact_mod_cast a.den_nz) (by exact_mod_cast b.den_nz)]
  ring_nf

/-- Running sum `normA`/`normB` of `cosineSimilarity` (server.ts lines 117-129):
the sum of squares of the entries of a vector. -/
def sqNorm (v : List ℚ) : ℚ := v.foldl (fun s x => qadd s (qmul x x)) 0

/-- The `dotProduct` accumulator of `cosineSimilarity`: the loop runs over the
indices of `vecA`, so only the first `vecA.length` entries of `vecB` are read. -/
def dotPrefix (a b : List ℚ) : ℚ := (a.zip b).foldl (fun s p => qadd s (qmul p.1 p.2)) 0

/-- The function `cosineSimilarity` (server.ts lines 117-129).  The JS function returns the
float `dotProduct / (Math.sqrt(normA) * Math.sqrt(normB))`, where the loop runs
over `vecA`'s indices.  We represent the result symbolically: `some (d, nA, nB)`
denotes the real number `d / (sqrt nA * sqrt nB)` with `nA, nB > 0`, and `none`
denotes `NaN`.  `NaN` arises exactly when the loop reads `vecB[i]` past the end
of `vecB` (i.e. `vecB` is shorter than `vecA`; `undefined` poisons the sums) or
when a denominator factor is zero (then the numerator is forced to `0` as well,
giving `0/0`).  Note that a `vecB` longer than `vecA` is silently truncated to a
prefix, exactly as in the source. -/
def cosineSimilarity (vecA vecB : List ℚ) : Option (ℚ × ℚ × ℚ) :=
  if vecB.length < vecA.length then none
  else
    let d := dotPrefix vecA vecB
    let nA := sqNorm vecA
    let nB := sqNorm (vecB.take vecA.length)
    if nA = 0 ∨ nB = 0 then none else some (d, nA, nB)

/-- The comparison `similarity >= threshold` as the source performs it
(server.ts line 371).  A `NaN` similarity compares `false` in JavaScript.  For a
finite value `d / (sqrt nA * sqrt nB)` with `nA, nB > 0` the comparison with a
rational `t` is decided exactly, without square roots, by sign analysis and
squaring (for `0 ≤ t`: the value is `≥ t` iff `0 ≤ d` and `t²·nA·nB ≤ d²`). -/
def simGE (r : Option (ℚ × ℚ × ℚ)) (t : ℚ) : Bool :=
  match r with
  | none => false
  | some (d, nA, nB) =>
    if 0 ≤ t then decide (0 ≤ d) && decide (qmul (qmul t t) (qmul nA nB) ≤ qmul d d)
    else decide (0 ≤ d) || decide (qmul d d ≤ qmul (qmul t t) (qmul nA nB))

/-- One row of the `comments` table (server.ts lines 12-23, 40-51).  The
`embedding` column is stored as a JSON string in SQLite and parsed back into a
number array by `getAllCommentsForPost`; we keep it as the parsed vector. -/
structure Comment where
  id : String
  originalPostUri : String
  originalPostCid : String
  commentUri : String
  commentCid : String
  author : String
  text : String
  embedding : List ℚ
  createdAt : String
  processed : Bool
deriving DecidableEq

/-- The constant `SIMILARITY_THRESHOLD` (server.ts line 78), the float `0.2`. -/
def SIMILARITY_THRESHOLD : ℚ := Rat.divInt 1 5

/-- The constant `MIN_COMMENTS_FOR_NOTE` (server.ts line 79). -/
def MIN_COMMENTS_FOR_NOTE : Nat := 3

/-- The inner `for j` scan of the clustering loop (server.ts lines 361-376):
given the seed's similarity test `f`, walk the later indices `js`, skip indices
already in `claimed` (`processedIndices`), and claim-and-collect each index
whose similarity to the seed passes the threshold.  Returns the collected
members together with the updated claimed set. -/
def collectGroup (f : Nat → Bool) : List Nat → List Nat → List Nat × List Nat
  | [], claimed => ([], claimed)
  | j :: js, claimed =>
    if j ∈ claimed then collectGroup f js claimed
    else if f j then
      let r := collectGroup f js (j :: claimed)
      (j :: r.1, r.2)
    else collectGroup f js claimed

/-- The outer `for i` loop of the clustering algorithm (server.ts lines
353-384): each unclaimed index seeds a candidate group, claims itself, scans
the later indices via `collectGroup`, and the candidate is emitted only when
its size reaches `ms` (`MIN_COMMENTS_FOR_NOTE`); either way its members stay
claimed. -/
def groupLoop (sim : Nat → Nat → Bool) (ms : Nat) : List Nat → List Nat → List (List Nat)
  | [], _ => []
  | i :: rest, claimed =>
    if i ∈ claimed then groupLoop sim ms rest claimed
    else
      let r := collectGroup (sim i) rest (i :: claimed)
      if ms ≤ (i :: r.1).length then (i :: r.1) :: groupLoop sim ms rest r.2
      else groupLoop sim ms rest r.2

/-- Same loop but recording every candidate group, emitted or not; used to
reason about the fate of the below-minimum candidates. -/
def candidateLoop (sim : Nat → Nat → Bool) : List Nat → List Nat → List (List Nat)
  | [], _ => []
  | i :: rest, claimed =>
    if i ∈ claimed then candidateLoop sim rest claimed
    else
      let r := collectGroup (sim i) rest (i :: claimed)
      (i :: r.1) :: candidateLoop sim rest r.2

/-- The emitted similarity groups, at the level of indices into the comment
list: the loop of server.ts lines 350-384 run on indices `0..n-1`. -/
def clusterIdx (sim : Nat → Nat → Bool) (n ms : Nat) : List (List Nat) :=
  groupLoop sim ms (List.range n) []

/-- Every candidate group the loop ever starts, in seed order. -/
def candidateGroups (sim : Nat → Nat → Bool) (n : Nat) : List (List Nat) :=
  candidateLoop sim (List.range n) []

/-- The similarity test between the stored comments at positions `i` and `j`,
exactly as the source computes it (server.ts lines 364-371). -/
def simIdx (cs : List Comment) (t : ℚ) (i j : Nat) : Bool :=
  match cs[i]?, cs[j]? with
  | some a, some b => simGE (cosineSimilarity a.embedding b.embedding) t
  | _, _ => false

/-- The function `similarCommentGroups` (server.ts lines 350-384): the emitted groups of
comments, obtained from the index-level clustering. -/
def similarCommentGroups (cs : List Comment) (t : ℚ) (ms : Nat) : List (List Comment) :=
  (clusterIdx (simIdx cs t) cs.length ms).map (fun g => g.filterMap (fun i => cs[i]?))

theorem collectGroup_fst_mem (f : Nat → Bool) (js : List Nat) : ∀ (claimed : List Nat) (x : Nat),
    x ∈ (collectGroup f js claimed).1 → x ∈ js ∧ x ∉ claimed ∧ f x = true := by
  induction js with
  | nil => intro claimed x hx; simp [collectGroup] at hx
  | cons j js ih =>
    intro claimed x hx
    by_cases hj : j ∈ claimed
    · simp only [collectGroup, if_pos hj] at hx
      rcases ih claimed x hx with ⟨h1, h2, h3⟩
      exact ⟨List.mem_cons_of_mem _ h1, h2, h3⟩
    · by_cases hf : f j = true
      · simp only [collectGroup, if_neg hj, if_pos hf] at hx
        rcases List.mem_cons.mp hx with rfl | hx'
        · exact ⟨List.mem_cons_self _ _, hj, hf⟩
        · rcases ih (j :: claimed) x hx' with ⟨h1, h2, h3⟩
          exact ⟨List.mem_cons_of_mem _ h1, fun hc => h2 (List.mem_cons_of_mem _ hc), h3⟩
      · simp only [collectGroup, if_neg hj, if_neg hf] at hx
        rcases ih claimed x hx with ⟨h1, h2, h3⟩
        exact ⟨List.mem_cons_of_mem _ h1, h2, h3⟩

theorem collectGroup_snd_mem (f : Nat → Bool) (js : List Nat) : ∀ (claimed : List Nat) (x : Nat),
    x ∈ (collectGroup f js claimed).2 ↔ x ∈ (collectGroup f js claimed).1 ∨ x ∈ claimed := by
  induction js with
  | nil => intro claimed x; simp [collectGroup]
  | cons j js ih =>
    intro claimed x
    by_cases hj : j ∈ claimed
    · simp only [collectGroup, if_pos hj]; exact ih claimed x
    · by_cases hf : f j = true
      · simp only [collectGroup, if_neg hj, if_pos hf]
        rw [ih (j :: claimed) x]
        constructor
        · rintro (h | h)
          · exact Or.inl (List.mem_cons_of_mem _ h)
          · rcases List.mem_cons.mp h with rfl | h'
            · exact Or.inl (List.mem_cons_self _ _)
            · exact Or.inr h'
        · rintro (h | h)
          · rcases List.mem_cons.mp h with rfl | h'
            · exact Or.inr (List.mem_cons_self _ _)
            · exact Or.inl h'
          · exact Or.inr (List.mem_cons_of_mem _ h)
      · simp only [collectGroup, if_neg hj, if_neg hf]; exact ih claimed x

theorem candidateLoop_mem (sim : Nat → Nat → Bool) (is : List Nat) : ∀ (claimed : List Nat)
    (g : List Nat), g ∈ candidateLoop sim is claimed → ∀ x ∈ g, x ∈ is ∧ x ∉ claimed := by
  induction is with
  | nil => intro claimed g hg; simp [candidateLoop] at hg
  | cons i rest ih =>
    intro claimed g hg x hx
    by_cases hi : i ∈ claimed
    · simp only [candidateLoop, if_pos hi] at hg
      rcases ih claimed g hg x hx with ⟨h1, h2⟩
      exact ⟨List.mem_cons_of_mem _ h1, h2⟩
    · simp only [candidateLoop, if_neg hi] at hg
      rcases List.mem_cons.mp hg with rfl | hg'
      · rcases List.mem_cons.mp hx with rfl | hx'
        · exact ⟨List.mem_cons_self _ _, hi⟩
        · rcases collectGroup_fst_mem (sim i) rest (i :: claimed) x hx' with ⟨h1, h2, _⟩
          exact ⟨List.mem_cons_of_mem _ h1, fun hc => h2 (List.mem_cons_of_mem _ hc)⟩
      · rcases ih _ g hg' x hx with ⟨h1, h2⟩
        refine ⟨List.mem_cons_of_mem _ h1, fun hc => h2 ?_⟩
        exact (collectGroup_snd_mem (sim i) rest (i :: claimed) x).mpr
          (Or.inr (List.mem_cons_of_mem _ hc))

theorem candidateLoop_pairwise (sim : Nat → Nat → Bool) (is : List Nat) : ∀ (claimed : List Nat),
    (candidateLoop sim is claimed).Pairwise (fun g h => ∀ x ∈ g, x ∉ h) := by
  induction is with
  | nil => intro claimed; simp [candidateLoop]
  | cons i rest ih =>
    intro claimed
    by_cases hi : i ∈ claimed
    · simpa only [candidateLoop, if_pos hi] using ih claimed
    · simp only [candidateLoop, if_neg hi]
      refine List.Pairwise.cons ?_ (ih _)
      intro h hh x hx hxh
      have hmem := (candidateLoop_mem sim rest _ h hh x hxh).2
      apply hmem
      rcases List.mem_cons.mp hx with rfl | hx'
      · exact (collectGroup_snd_mem (sim x) rest (x :: claimed) x).mpr
          (Or.inr (List.mem_cons_self _ _))
      · exact (collectGroup_snd_mem (sim i) rest (i :: claimed) x).mpr (Or.inl hx')

theorem groupLoop_eq_filter (sim : Nat → Nat → Bool) (ms : Nat) (is : List Nat) :
    ∀ (claimed : List Nat), groupLoop sim ms is claimed
      = (candidateLoop sim is claimed).filter (fun g => ms ≤ g.length) := by
  induction is with
  | nil => intro claimed; simp [groupLoop, candidateLoop]
  | cons i rest ih =>
    intro claimed
    by_cases hi : i ∈ claimed
    · simp only [groupLoop, candidateLoop, if_pos hi]; exact ih claimed
    · by_cases hms : ms ≤ (i :: (collectGroup (sim i) rest (i :: claimed)).1).length
      · simp only [groupLoop, candidateLoop, if_neg hi, if_pos hms, List.filter_cons, ih]
        rw [if_pos (by simpa using hms)]
      · simp only [groupLoop, candidateLoop, if_neg hi, if_neg hms, List.filter_cons, ih]
        rw [if_neg (by simpa using hms)]

theorem candidateLoop_shape (sim : Nat → Nat → Bool) (is : List Nat) : ∀ (claimed : List Nat)
    (g : List Nat), g ∈ candidateLoop sim is claimed →
    ∃ i r, g = i :: r ∧ ∀ j ∈ r, sim i j = true := by
  induction is with
  | nil => intro claimed g hg; simp [candidateLoop] at hg
  | cons i rest ih =>
    intro claimed g hg
    by_cases hi : i ∈ claimed
    · simp only [candidateLoop, if_pos hi] at hg; exact ih claimed g hg
    · simp only [candidateLoop, if_neg hi] at hg
      rcases List.mem_cons.mp hg with rfl | hg'
      · exact ⟨i, _, rfl, fun j hj => (collectGroup_fst_mem (sim i) rest (i :: claimed) j hj).2.2⟩
      · exact ih _ g hg'

theorem clusterIdx_pairwise (sim : Nat → Nat → Bool) (n ms : Nat) :
    (clusterIdx sim n ms).Pairwise (fun g h => ∀ x ∈ g, x ∉ h) := by
  rw [clusterIdx, groupLoop_eq_filter]
  exact (candidateLoop_pairwise sim (List.range n) []).filter _

theorem clusterIdx_minSize (sim : Nat → Nat → Bool) (n ms : Nat) :
    ∀ g ∈ clusterIdx sim n ms, ms ≤ g.length := by
  intro g hg
  rw [clusterIdx, groupLoop_eq_filter] at hg
  simpa using (List.mem_filter.mp hg).2

theorem clusterIdx_subset_candidates (sim : Nat → Nat → Bool) (n ms : Nat) :
    ∀ g ∈ clusterIdx sim n ms, g ∈ candidateGroups sim n := by
  intro g hg
  rw [clusterIdx, groupLoop_eq_filter] at hg
  exact List.mem_filter.mp hg |>.1

theorem clusterIdx_mem_lt (sim : Nat → Nat → Bool) (n ms : Nat) :
    ∀ g ∈ clusterIdx sim n ms, ∀ x ∈ g, x < n := by
  intro g hg x hx
  have := candidateLoop_mem sim (List.range n) [] g
    (clusterIdx_subset_candidates sim n ms g hg) x hx
  simpa using this.1

/-- One row of the `community_notes` table (server.ts lines 53-61).  Note text
is modelled as a list of characters so that the length bound of the truncation
logic can be reasoned about positionally. -/
structure CommunityNote where
  id : String
  originalPostUri : String
  originalPostCid : String
  noteText : List Char
  commentIds : List String
  createdAt : String
  posted : Bool
deriving DecidableEq

/-- One row of the `processed_posts` ledger table (server.ts lines 63-68). -/
structure ProcessedPost where
  uri : String
  cid : String
  processedAt : String
  noteCount : Nat
deriving DecidableEq

/-- The three SQLite tables, in insertion (rowid) order. -/
structure Store where
  comments : List Comment
  notes : List CommunityNote
  posts : List ProcessedPost
deriving DecidableEq

/-- The function `saveCommunityNote` (server.ts lines 156-178): `INSERT OR IGNORE` keyed on
the note id — a clashing id leaves the table unchanged. -/
def saveCommunityNote (st : Store) (n : CommunityNote) : Store :=
  if st.notes.any (fun m => m.id = n.id) then st
  else { st with notes := st.notes ++ [n] }

/-- The function `markCommunityNoteAsPosted` (server.ts lines 181-184):
`UPDATE community_notes SET posted = 1 WHERE id = ?`. -/
def markCommunityNoteAsPosted (st : Store) (nid : String) : Store :=
  { st with notes := st.notes.map (fun n => if n.id = nid then { n with posted := true } else n) }

/-- The function `deleteCommunityNotesForPost` (server.ts lines 187-191):
`DELETE FROM community_notes WHERE originalPostUri = ?` — every note for the
post is removed, with no condition on `posted`. -/
def deleteCommunityNotesForPost (st : Store) (uri : String) : Store :=
  { st with notes := st.notes.filter (fun n => n.originalPostUri ≠ uri) }

/-- The function `markCommentAsProcessed` (server.ts lines 194-197). -/
def markCommentAsProcessed (st : Store) (cid : String) : Store :=
  { st with comments := st.comments.map (fun c => if c.id = cid then { c with processed := true } else c) }

/-- The `for (const comment of group) markCommentAsProcessed(comment.id)` loop
(server.ts lines 422-425). -/
def markCommentsProcessed (st : Store) (ids : List String) : Store :=
  ids.foldl markCommentAsProcessed st

/-- The function `markPostAsProcessed` (server.ts lines 200-207): `INSERT OR REPLACE` keyed
on the post uri. -/
def markPostAsProcessed (st : Store) (uri cid : String) (time : String) (noteCount : Nat) : Store :=
  { st with posts := st.posts.filter (fun p => p.uri ≠ uri) ++ [⟨uri, cid, time, noteCount⟩] }

/-- The function `isPostProcessed` (server.ts lines 210-214). -/
def isPostProcessed (st : Store) (uri : String) : Bool :=
  st.posts.any (fun p => p.uri = uri)

/-- The function `getAllCommentsForPost` (server.ts lines 217-226):
`SELECT * FROM comments WHERE originalPostUri = ?`, in stored order. -/
def getAllCommentsForPost (st : Store) (uri : String) : List Comment :=
  st.comments.filter (fun c => c.originalPostUri = uri)

/-- The health flags of the remote platform client as seen by one invocation of
`hasExistingNoteForPost` (server.ts lines 582-616): whether `agent.session` is
present, whether a fresh `login` would succeed, and whether the
`getProfile`/`getPostThread` queries complete without throwing. -/
structure Remote where
  sessionActive : Bool
  loginOk : Bool
  queryOk : Bool
deriving DecidableEq

/-- The function `hasExistingNoteForPost` (server.ts lines 582-616).  The remote platform's
ground truth is threaded as `w`, the list of post uris currently carrying a
reply from this account (the `replies.any(author.did = myDid)` scan).  If no
session is active and login fails, the function returns `false` (line 587); if
the profile/thread query throws, the `catch` returns `false` (lines 612-615);
otherwise it reports whether the post carries an own reply. -/
def hasExistingNoteForPost (r : Remote) (w : List String) (uri : String) : Bool :=
  if !r.sessionActive && !r.loginOk then false
  else if !r.queryOk then false
  else w.contains uri

/-- The remote check succeeds (a session exists or login works, and the thread
query does not throw). -/
def remoteHealthy (r : Remote) : Bool :=
  (r.sessionActive || r.loginOk) && r.queryOk

/-- The external capabilities consumed by one invocation of the pipeline:
the remote client's health, the synthesis backend's raw output and failure
flag per group index, the generated note ids and timestamps, and whether the
`postReply` call for the k-th group succeeds. -/
structure Oracle where
  remote : Remote
  rawNote : Nat → List Char
  genFails : Nat → Bool
  noteId : Nat → String
  noteTime : Nat → String
  recordTime : String
  postOk : Nat → Bool

/-- The truncation applied both by `generateCommunityNote` (server.ts lines
253-256) and by `postReply` (lines 272-277): text over 280 characters is cut
to 277 characters plus an ellipsis. -/
def truncate280 (s : List Char) : List Char :=
  if 280 < s.length then s.take 277 ++ ['.', '.', '.'] else s

/-- The fixed fallback produced by `generateCommunityNote`'s catch branch
(server.ts line 261). -/
def fallbackNote : List Char := "**COMMUNITY NOTE** Unable to generate note due to an error.".toList

/-- The function `generateCommunityNote` (server.ts lines 229-263) for the k-th group: on a
synthesis failure the fixed fallback is returned from the catch; otherwise the
backend's text (the `||`-fallback for null content is folded into `rawNote`)
is truncated to the 280-character limit. -/
def generateCommunityNote (orc : Oracle) (k : Nat) : List Char :=
  if orc.genFails k then fallbackNote else truncate280 (orc.rawNote k)

/-- The text actually handed to `agent.post` by `postReply` (server.ts lines
272-277): the input truncated once more to the 280-character limit. -/
def postReplyText (text : List Char) : List Char := truncate280 text

/-- The outcome of one pipeline invocation: the final store, the remote reply
state, the number of successful publishes (`successfulNotes`), and the number
of `postReply` calls performed. -/
structure RunResult where
  store : Store
  world : List String
  published : Nat
  attempts : Nat
deriving DecidableEq

/-- Intermediate state of the per-group publish loop. -/
structure PubResult where
  store : Store
  world : List String
  succ : Nat
  att : Nat
deriving DecidableEq

/-- The `for (const group of similarCommentGroups)` loop (server.ts lines
391-429 and 768-812): for each group, synthesize the note text, save it
unposted, attempt to publish, and on success mark the note posted and the
group's comments processed.  A successful publish adds the post's uri to the
remote reply state `w`.  `cidFor` supplies the cid recorded with the note
(`originalPostCid` from the SQL row in `processSimilarComments`; the first
group member's cid in the `/process-post` route). -/
def publishGroups (orc : Oracle) (uri : String) (cidFor : List Comment → String) :
    List (List Comment) → Nat → Store → List String → Nat → Nat → PubResult
  | [], _, st, w, succ, att => ⟨st, w, succ, att⟩
  | g :: gs, k, st, w, succ, att =>
    let noteText := generateCommunityNote orc k
    let st1 := saveCommunityNote st
      ⟨orc.noteId k, uri, cidFor g, noteText, g.map (fun c => c.id), orc.noteTime k, false⟩
    if orc.postOk k then
      let st2 := markCommentsProcessed (markCommunityNoteAsPosted st1 (orc.noteId k))
        (g.map (fun c => c.id))
      publishGroups orc uri cidFor gs (k + 1) st2 (uri :: w) (succ + 1) (att + 1)
    else
      publishGroups orc uri cidFor gs (k + 1) st1 w succ (att + 1)

/-- The body of the per-post loop of `processSimilarComments` (server.ts lines
326-434) for one `(originalPostUri, originalPostCid)` row: check the remote
platform for an existing note (and if found, record the post as processed with
`noteCount = 1` when the ledger does not already have it, performing no publish
call); otherwise delete the stored notes for the post, load its comments,
cluster them, publish per group, and finally record the post as processed when
at least one publish succeeded. -/
def processOnePost (orc : Oracle) (uri cid : String) (st : Store) (w : List String) : RunResult :=
  if hasExistingNoteForPost orc.remote w uri then
    if isPostProcessed st uri then ⟨st, w, 0, 0⟩
    else ⟨markPostAsProcessed st uri cid orc.recordTime 1, w, 0, 0⟩
  else
    let st1 := deleteCommunityNotesForPost st uri
    let cs := getAllCommentsForPost st1 uri
    let groups := similarCommentGroups cs SIMILARITY_THRESHOLD MIN_COMMENTS_FOR_NOTE
    let r := publishGroups orc uri (fun _ => cid) groups 0 st1 w 0 0
    if 0 < r.succ then ⟨markPostAsProcessed r.store uri cid orc.recordTime r.succ, r.world, r.succ, r.att⟩
    else ⟨r.store, r.world, r.succ, r.att⟩

/-- The response taken by the `/process-post` route. -/
inductive RouteStatus
  | alreadyNoted
  | notEnough
  | noGroups
  | ok
deriving DecidableEq

/-- The cid the `/process-post` route stores with each note:
`group[0].originalPostCid` (server.ts lines 782 and 790). -/
def headCid (g : List Comment) : String :=
  match g with
  | [] => ""
  | c :: _ => c.originalPostCid

/-- The `/process-post` route handler (server.ts lines 685-823): reject when
the remote platform already shows a note (without touching local state), else
delete the stored notes, reject when fewer than `MIN_COMMENTS_FOR_NOTE`
comments exist or no group is found, and otherwise run the publish loop.  The
route never writes to the `processed_posts` ledger. -/
def processPostRoute (orc : Oracle) (postUri : String) (st : Store) (w : List String) :
    RouteStatus × RunResult :=
  if hasExistingNoteForPost orc.remote w postUri then (.alreadyNoted, ⟨st, w, 0, 0⟩)
  else
    let st1 := deleteCommunityNotesForPost st postUri
    let cs := getAllCommentsForPost st1 postUri
    if cs.length < MIN_COMMENTS_FOR_NOTE then (.notEnough, ⟨st1, w, 0, 0⟩)
    else
      let groups := similarCommentGroups cs SIMILARITY_THRESHOLD MIN_COMMENTS_FOR_NOTE
      if groups.length = 0 then (.noGroups, ⟨st1, w, 0, 0⟩)
      else
        let r := publishGroups orc postUri headCid groups 0 st1 w 0 0
        (.ok, ⟨r.store, r.world, r.succ, r.att⟩)

theorem publishGroups_att (orc : Oracle) (uri : String) (cidFor : List Comment → String) :
    ∀ (gs : List (List Comment)) (k : Nat) (st : Store) (w : List String) (succ att : Nat),
    (publishGroups orc uri cidFor gs k st w succ att).att = att + gs.length := by
  intro gs
  induction gs with
  | nil => intro k st w succ att; simp [publishGroups]
  | cons g gs ih =>
    intro k st w succ att
    by_cases h : orc.postOk k = true
    · simp only [publishGroups, if_pos h, ih, List.length_cons]; omega
    · simp only [publishGroups, if_neg h, ih, List.length_cons]; omega

theorem publishGroups_world_mono (orc : Oracle) (uri : String) (cidFor : List Comment → String) :
    ∀ (gs : List (List Comment)) (k : Nat) (st : Store) (w : List String) (succ att : Nat)
    (x : String), x ∈ w → x ∈ (publishGroups orc uri cidFor gs k st w succ att).world := by
  intro gs
  induction gs with
  | nil => intro k st w succ att x hx; simpa [publishGroups] using hx
  | cons g gs ih =>
    intro k st w succ att x hx
    by_cases h : orc.postOk k = true
    · simp only [publishGroups, if_pos h]
      exact ih _ _ _ _ _ _ (List.mem_cons_of_mem _ hx)
    · simp only [publishGroups, if_neg h]
      exact ih _ _ _ _ _ _ hx

theorem publishGroups_world_of_succ (orc : Oracle) (uri : String) (cidFor : List Comment → String) :
    ∀ (gs : List (List Comment)) (k : Nat) (st : Store) (w : List String) (succ att : Nat),
    succ < (publishGroups orc uri cidFor gs k st w succ att).succ →
    uri ∈ (publishGroups orc uri cidFor gs k st w succ att).world := by
  intro gs
  induction gs with
  | nil => intro k st w succ att h; simp [publishGroups] at h
  | cons g gs ih =>
    intro k st w succ att h
    by_cases hp : orc.postOk k = true
    · simp only [publishGroups, if_pos hp]
      exact publishGroups_world_mono orc uri cidFor gs _ _ _ _ _ uri (List.mem_cons_self _ _)
    · simp only [publishGroups, if_neg hp] at h ⊢
      exact ih _ _ _ _ _ h

theorem markCommentsProcessed_notes (ids : List String) : ∀ (st : Store),
    (markCommentsProcessed st ids).notes = st.notes := by
  induction ids with
  | nil => intro st; rfl
  | cons i ids ih =>
    intro st
    show (markCommentsProcessed (markCommentAsProcessed st i) ids).notes = st.notes
    rw [ih]
    rfl

theorem saveCommunityNote_frame (st : Store) (nt : CommunityNote) (n : CommunityNote)
    (hne : n.originalPostUri ≠ nt.originalPostUri) :
    n ∈ (saveCommunityNote st nt).notes ↔ n ∈ st.notes := by
  unfold saveCommunityNote
  by_cases h : st.notes.any (fun m => m.id = nt.id) = true
  · simp [h]
  · rw [if_neg h]
    show n ∈ st.notes ++ [nt] ↔ n ∈ st.notes
    rw [List.mem_append, List.mem_singleton]
    constructor
    · rintro (h1 | rfl)
      · exact h1
      · exact absurd rfl hne
    · exact Or.inl

theorem markCommunityNoteAsPosted_frame (st : Store) (nid : String) (uri : String)
    (hfresh : ∀ m ∈ st.notes, m.originalPostUri ≠ uri → m.id ≠ nid)
    (n : CommunityNote) (hne : n.originalPostUri ≠ uri) :
    n ∈ (markCommunityNoteAsPosted st nid).notes ↔ n ∈ st.notes := by
  unfold markCommunityNoteAsPosted
  simp only [List.mem_map]
  constructor
  · rintro ⟨m, hm, hmn⟩
    by_cases hid : m.id = nid
    · rw [if_pos hid] at hmn
      have hup : m.originalPostUri = n.originalPostUri := by rw [← hmn]
      exact absurd hid (hfresh m hm (by rw [hup]; exact hne))
    · rw [if_neg hid] at hmn
      rw [← hmn]
      exact hm
  · intro hn
    refine ⟨n, hn, ?_⟩
    rw [if_neg (hfresh n hn hne)]

theorem publishGroups_notes_frame (orc : Oracle) (uri : String) (cidFor : List Comment → String) :
    ∀ (gs : List (List Comment)) (k : Nat) (st : Store) (w : List String) (succ att : Nat),
    (∀ (j : Nat) (m : CommunityNote), m ∈ st.notes → m.originalPostUri ≠ uri →
      m.id ≠ orc.noteId j) →
    ∀ (n : CommunityNote), n.originalPostUri ≠ uri →
      (n ∈ (publishGroups orc uri cidFor gs k st w succ att).store.notes ↔ n ∈ st.notes) := by
  intro gs
  induction gs with
  | nil => intro k st w succ att hf n hn; simp [publishGroups]
  | cons g gs ih =>
    intro k st w succ att hf n hn
    have hsave : ∀ (m : CommunityNote), m.originalPostUri ≠ uri →
        (m ∈ (saveCommunityNote st
          ⟨orc.noteId k, uri, cidFor g, generateCommunityNote orc k,
            g.map (fun c => c.id), orc.noteTime k, false⟩).notes ↔ m ∈ st.notes) :=
      fun m hm => saveCommunityNote_frame st _ m hm
    have hf1 : ∀ (j : Nat) (m : CommunityNote),
        m ∈ (saveCommunityNote st
          ⟨orc.noteId k, uri, cidFor g, generateCommunityNote orc k,
            g.map (fun c => c.id), orc.noteTime k, false⟩).notes →
        m.originalPostUri ≠ uri → m.id ≠ orc.noteId j :=
      fun j m hm hmu => hf j m ((hsave m hmu).mp hm) hmu
    by_cases hp : orc.postOk k = true
    · simp only [publishGroups, if_pos hp]
      have hmarked : ∀ (m : CommunityNote), m.originalPostUri ≠ uri →
          (m ∈ (markCommentsProcessed (markCommunityNoteAsPosted
              (saveCommunityNote st
                ⟨orc.noteId k, uri, cidFor g, generateCommunityNote orc k,
                  g.map (fun c => c.id), orc.noteTime k, false⟩) (orc.noteId k))
              (g.map (fun c => c.id))).notes ↔ m ∈ st.notes) := by
        intro m hm
        rw [markCommentsProcessed_notes]
        rw [markCommunityNoteAsPosted_frame _ _ uri (fun m' hm' hmu' => hf1 k m' hm' hmu') m hm]
        exact hsave m hm
      have hf2 : ∀ (j : Nat) (m : CommunityNote),
          m ∈ (markCommentsProcessed (markCommunityNoteAsPosted
              (saveCommunityNote st
                ⟨orc.noteId k, uri, cidFor g, generateCommunityNote orc k,
                  g.map (fun c => c.id), orc.noteTime k, false⟩) (orc.noteId k))
              (g.map (fun c => c.id))).notes →
          m.originalPostUri ≠ uri → m.id ≠ orc.noteId j :=
        fun j m hm hmu => hf j m ((hmarked m hmu).mp hm) hmu
      rw [ih _ _ _ _ _ hf2 n hn]
      exact hmarked n hn
    · simp only [publishGroups, if_neg hp]
      rw [ih _ _ _ _ _ hf1 n hn]
      exact hsave n hn

theorem deleteCommunityNotesForPost_frame (st : Store) (uri : String) (n : CommunityNote)
    (hne : n.originalPostUri ≠ uri) :
    n ∈ (deleteCommunityNotesForPost st uri).notes ↔ n ∈ st.notes := by
  unfold deleteCommunityNotesForPost
  simp only [List.mem_filter, decide_eq_true_eq]
  exact ⟨fun h => h.1, fun h => ⟨h, hne⟩⟩

theorem deleteCommunityNotesForPost_gone (st : Store) (uri : String) (n : CommunityNote)
    (heq : n.originalPostUri = uri) :
    n ∉ (deleteCommunityNotesForPost st uri).notes := by
  unfold deleteCommunityNotesForPost
  simp only [List.mem_filter, decide_eq_true_eq]
  rintro ⟨-, h⟩
  exact h heq

/-- Local state of one in-flight invocation of the per-post processing, for
reasoning about overlapping invocations (the periodic `setInterval(processAll)`
driver plus manual HTTP triggers, server.ts lines 918-924).  The program
counter marks the suspension points of the async code: 0 = about to run the
remote check (`await hasExistingNoteForPost`), 1 = about to run its
continuation (the branch, the delete and the clustering, all synchronous),
2 = about to run the continuation of `await generateCommunityNote` (which
saves the unposted note and calls `postReply`), 3 = about to complete
`await postReply` and its continuation (the success marks and the ledger
write), 4 = done.  The invocation is modelled for a post whose clustering
yields at most one group, which is all the double-publish analysis needs. -/
structure ThreadSt where
  pc : Nat
  hasNote : Bool
  groups : List (List Comment)
deriving DecidableEq

/-- Shared state for two overlapping invocations on the same post: the SQLite
store, the remote reply state, the number of successful publishes so far, and
the two invocations' local states. -/
structure ConcSt where
  store : Store
  world : List String
  pubs : Nat
  t0 : ThreadSt
  t1 : ThreadSt
deriving DecidableEq

/-- One atomic step of one invocation, following the code between two
consecutive await points of the per-post processing (see `ThreadSt`). -/
def threadStep (orc : Oracle) (uri cid : String) (store : Store) (w : List String) (pubs : Nat)
    (ts : ThreadSt) : ThreadSt × Store × List String × Nat :=
  match ts.pc with
  | 0 => ({ ts with pc := 1, hasNote := hasExistingNoteForPost orc.remote w uri }, store, w, pubs)
  | 1 =>
    if ts.hasNote then
      ({ ts with pc := 4 },
        (if isPostProcessed store uri then store
         else markPostAsProcessed store uri cid orc.recordTime 1),
        w, pubs)
    else
      let st1 := deleteCommunityNotesForPost store uri
      let gs := similarCommentGroups (getAllCommentsForPost st1 uri)
        SIMILARITY_THRESHOLD MIN_COMMENTS_FOR_NOTE
      ({ ts with pc := 2, groups := gs }, st1, w, pubs)
  | 2 =>
    match ts.groups with
    | [] => ({ ts with pc := 4 }, store, w, pubs)
    | g :: _ =>
      ({ ts with pc := 3 },
        saveCommunityNote store
          ⟨orc.noteId 0, uri, cid, generateCommunityNote orc 0, g.map (fun c => c.id),
           orc.noteTime 0, false⟩,
        w, pubs)
  | 3 =>
    match ts.groups with
    | [] => ({ ts with pc := 4 }, store, w, pubs)
    | g :: _ =>
      if orc.postOk 0 then
        let st2 := markCommentsProcessed (markCommunityNoteAsPosted store (orc.noteId 0))
          (g.map (fun c => c.id))
        ({ ts with pc := 4 }, markPostAsProcessed st2 uri cid orc.recordTime 1, uri :: w, pubs + 1)
      else ({ ts with pc := 4 }, store, w, pubs)
  | _ => (ts, store, w, pubs)

/-- Run one step of the invocation selected by `tid` (false = first). -/
def concStep (orc0 orc1 : Oracle) (uri cid : String) (s : ConcSt) (tid : Bool) : ConcSt :=
  if tid then
    let r := threadStep orc1 uri cid s.store s.world s.pubs s.t1
    ⟨r.2.1, r.2.2.1, r.2.2.2, s.t0, r.1⟩
  else
    let r := threadStep orc0 uri cid s.store s.world s.pubs s.t0
    ⟨r.2.1, r.2.2.1, r.2.2.2, r.1, s.t1⟩

/-- Run the two overlapping invocations under a given interleaving schedule. -/
def runConc (orc0 orc1 : Oracle) (uri cid : String) (sched : List Bool) (s : ConcSt) : ConcSt :=
  sched.foldl (concStep orc0 orc1 uri cid) s

/-- An invocation that has not started yet. -/
def initThread : ThreadSt := ⟨0, false, []⟩

/-- Fixture: three comments on post `"p"` whose embeddings are identical, so
each pair has cosine similarity exactly 1. -/
def cOne : Comment := ⟨"c1", "p", "pc", "u1", "c1", "a1", "grass is green", [1], "t1", false⟩

def cTwo : Comment := ⟨"c2", "p", "pc", "u2", "c2", "a2", "grass is not blue", [1], "t2", false⟩

def cThree : Comment := ⟨"c3", "p", "pc", "u3", "c3", "a3", "grass: green", [1], "t3", false⟩

/-- Fixture: the store holding exactly the three similar comments. -/
def stThree : Store := ⟨[cOne, cTwo, cThree], [], []⟩

/-- Fixture: an invocation during which every external capability works. -/
def orcOK : Oracle :=
  ⟨⟨true, true, true⟩, fun _ => "**COMMUNITY NOTE** Grass is green.".toList,
    fun _ => false, fun _ => "n1", fun _ => "tn", "tr", fun _ => true⟩

/-- Fixture: like `orcOK` but the thread query of the remote existing-note
check throws (its `catch` then reports `false`). -/
def orcNoRemote : Oracle := { orcOK with remote := ⟨true, true, false⟩ }

/-- The literal tag `generateCommunityNote`'s system message demands at the
start of every note (server.ts lines 239 and 251). -/
def noteTag : List Char := "**COMMUNITY NOTE**".toList

theorem truncate280_length (s : List Char) : (truncate280 s).length ≤ 280 := by
  unfold truncate280
  by_cases hl : 280 < s.length
  · rw [if_pos hl]
    simp only [List.length_append, List.length_take]
    have : (['.', '.', '.'] : List Char).length = 3 := rfl
    omega
  · rw [if_neg hl]; omega

theorem truncate280_tag (s : List Char) (h : noteTag.isPrefixOf s = true) :
    noteTag.isPrefixOf (truncate280 s) = true := by
  rw [ List.isPrefixOf_iff_prefix] at h ⊢
  unfold truncate280
  by_cases hl : 280 < s.length
  · rw [if_pos hl]
    refine List.IsPrefix.trans ?_ (List.prefix_append _ _)
    rw [List.prefix_take_iff]
    exact ⟨h, by decide⟩
  · rw [if_neg hl]; exact h

theorem markPostAsProcessed_notes (st : Store) (uri cid time : String) (k : Nat) :
    (markPostAsProcessed st uri cid time k).notes = st.notes := rfl

theorem contains_eq_true_of_mem {w : List String} {u : String} (h : u ∈ w) :
    w.contains u = true :=
  List.elem_eq_true_of_mem h

theorem hasExistingNoteForPost_healthy (r : Remote) (w : List String) (uri : String)
    (hh : remoteHealthy r = true) : hasExistingNoteForPost r w uri = w.contains uri := by
  rcases r with ⟨sa, lo, q⟩
  simp only [remoteHealthy, Bool.and_eq_true, Bool.or_eq_true] at hh
  obtain ⟨h1, h2⟩ := hh
  unfold hasExistingNoteForPost
  subst h2
  rcases h1 with h | h <;> subst h <;> simp

theorem processOnePost_world_of_pub (orc : Oracle) (uri cid : String) (st : Store)
    (w : List String) (hpub : 0 < (processOnePost orc uri cid st w).published) :
    uri ∈ (processOnePost orc uri cid st w).world := by
  by_cases h1 : hasExistingNoteForPost orc.remote w uri = true
  · exfalso
    simp only [processOnePost, h1, if_true, apply_ite RunResult.published, ite_self] at hpub
    exact Nat.lt_irrefl 0 hpub
  · rw [Bool.not_eq_true] at h1
    simp only [processOnePost, h1, Bool.false_eq_true, if_false,
      apply_ite RunResult.published, apply_ite RunResult.world, ite_self] at hpub ⊢
    exact publishGroups_world_of_succ orc uri _ _ _ _ _ _ _ hpub

theorem filterMap_getElem_length (cs : List Comment) (g : List Nat)
    (h : ∀ i ∈ g, i < cs.length) :
    (g.filterMap (fun i => cs[i]?)).length = g.length := by
  induction g with
  | nil => rfl
  | cons i g ih =>
    have hi : cs[i]? = some (cs.get ⟨i, h i (List.mem_cons_self _ _)⟩) :=
      List.getElem?_eq_getElem (h i (List.mem_cons_self _ _))
    simp only [List.filterMap_cons, hi, List.length_cons]
    rw [ih (fun j hj => h j (List.mem_cons_of_mem _ hj))]

theorem cosineSimilarity_none_of_short (a b : List ℚ) (h : b.length < a.length) :
    cosineSimilarity a b = none := by
  unfold cosineSimilarity
  rw [if_pos h]

theorem clusterIdx_star (sim : Nat → Nat → Bool) (h1 : sim 0 1 = true) (h2 : sim 0 2 = true)
    (h3 : sim 0 3 = true) : clusterIdx sim 4 3 = [[0, 1, 2, 3]] := by
  have hr : List.range 4 = [0, 1, 2, 3] := rfl
  simp [clusterIdx, hr, groupLoop, collectGroup, h1, h2, h3]

/-- Fixture: the empty store. -/
def stEmpty : Store := ⟨[], [], []⟩

/-- Fixture: a comment similar to each of the three following orthogonal ones
(cosine of `[1,1,1]` with each axis vector is `1 / sqrt 3 > 0.2`, while the axis
vectors are mutually orthogonal, cosine `0 < 0.2`). -/
def aStar : Comment := ⟨"a", "p", "pc", "ua", "a", "aa", "ta", [1, 1, 1], "t1", false⟩

def bStar : Comment := ⟨"b", "p", "pc", "ub", "b", "ab", "tb", [1, 0, 0], "t2", false⟩

def cStar : Comment := ⟨"c", "p", "pc", "uc", "c", "ac", "tc", [0, 1, 0], "t3", false⟩

def dStar : Comment := ⟨"d", "p", "pc", "ud", "d", "ad", "td", [0, 0, 1], "t4", false⟩

/-- Fixture: a comment with a malformed one-entry embedding, alongside three
well-formed two-entry embeddings. -/
def mBad : Comment := ⟨"m", "p", "pc", "um", "m", "am", "tm", [1], "tm", false⟩

def wOne : Comment := ⟨"w1", "p", "pc", "uw1", "w1", "a1", "t1", [1, 0], "t1", false⟩

def wTwo : Comment := ⟨"w2", "p", "pc", "uw2", "w2", "a2", "t2", [1, 0], "t2", false⟩

def wThree : Comment := ⟨"w3", "p", "pc", "uw3", "w3", "a3", "t3", [1, 0], "t3", false⟩

/-- Fixture: an oracle whose synthesis backend returns a tagged text well over
the 280-character limit. -/
def orcLong : Oracle := { orcOK with rawNote := fun _ => noteTag ++ List.replicate 300 'x' }

/-- Claim C3, demonstration of the failing interleaving: the code has no
per-post serialization, and when two overlapping invocations (periodic tick
plus manual trigger) both run their remote existing-note check before either
publishes, both publish — two annotations are published for the same post,
so the double-publish race is not structurally impossible. -/
theorem claim3_double_publish :
    (runConc orcOK orcOK "p" "pc" [false, true, false, false, false, true, true, true]
      ⟨stThree, [], 0, initThread, initThread⟩).pubs = 2 := by decide

/-- Claim C4: for every comment sequence, threshold and minimum size, the
emitted groups of the clustering algorithm are pairwise disjoint (each stored
comment, identified by its position, belongs to at most one emitted group) and
every emitted group has size at least `minSize`. -/
theorem claim4_disjoint_minSize (cs : List Comment) (t : ℚ) (ms : Nat) :
    (clusterIdx (simIdx cs t) cs.length ms).Pairwise (fun g h => ∀ x ∈ g, x ∉ h) ∧
    ∀ g ∈ similarCommentGroups cs t ms, ms ≤ g.length := by
  refine ⟨clusterIdx_pairwise _ _ _, ?_⟩
  intro g hg
  rcases List.mem_map.mp hg with ⟨gi, hgi, rfl⟩
  rw [filterMap_getElem_length cs gi (clusterIdx_mem_lt _ _ _ gi hgi)]
  exact clusterIdx_minSize _ _ _ gi hgi

theorem claim4_witness : 3 ≤ ([cOne, cTwo, cThree] : List Comment).length :=
  (claim4_disjoint_minSize [cOne, cTwo, cThree] SIMILARITY_THRESHOLD 3).2
    [cOne, cTwo, cThree] (by decide)

/-- Claim C5: on input `[A,B,C,D]` where the similarity of `A` to each of
`B`, `C`, `D` passes the threshold and every pair among `B`, `C`, `D` is below
it, clustering with `minSize = 3` emits exactly one group containing exactly
`A`, `B`, `C`, `D`: membership is decided against the group's seed only. -/
theorem claim5_seed_only_group (a b c d : Comment) (t : ℚ)
    (hab : simGE (cosineSimilarity a.embedding b.embedding) t = true)
    (hac : simGE (cosineSimilarity a.embedding c.embedding) t = true)
    (had : simGE (cosineSimilarity a.embedding d.embedding) t = true)
    (hbc : simGE (cosineSimilarity b.embedding c.embedding) t = false)
    (hbd : simGE (cosineSimilarity b.embedding d.embedding) t = false)
    (hcd : simGE (cosineSimilarity c.embedding d.embedding) t = false) :
    similarCommentGroups [a, b, c, d] t 3 = [[a, b, c, d]] := by
  have h01 : simIdx [a, b, c, d] t 0 1 = true := hab
  have h02 : simIdx [a, b, c, d] t 0 2 = true := hac
  have h03 : simIdx [a, b, c, d] t 0 3 = true := had
  have hcl := clusterIdx_star (simIdx [a, b, c, d] t) h01 h02 h03
  unfold similarCommentGroups
  rw [show ([a, b, c, d] : List Comment).length = 4 from rfl, hcl]
  rfl

theorem claim5_witness :
    similarCommentGroups [aStar, bStar, cStar, dStar] SIMILARITY_THRESHOLD 3
      = [[aStar, bStar, cStar, dStar]] :=
  claim5_seed_only_group aStar bStar cStar dStar SIMILARITY_THRESHOLD (by decide) (by decide)
    (by decide) (by decide) (by decide) (by decide)

/-- Claim C6: a candidate group whose final size is below `minSize` is not
emitted, and none of its members (seed included) appears in any emitted group
or in any other candidate group of the same call — they stay claimed, so they
neither seed a later group nor are offered to a later seed. -/
theorem claim6_small_candidate_fate (sim : Nat → Nat → Bool) (n ms : Nat) (g : List Nat)
    (hg : g ∈ candidateGroups sim n) (hsmall : g.length < ms) :
    (∀ h ∈ clusterIdx sim n ms, ∀ x ∈ g, x ∉ h) ∧
    (∀ h ∈ candidateGroups sim n, h ≠ g → ∀ x ∈ g, x ∉ h) := by
  have hsym : Symmetric (fun (g h : List Nat) => ∀ x ∈ g, x ∉ h) := by
    intro p q hpq y hy hyq
    exact hpq y hyq hy
  have hpw := candidateLoop_pairwise sim (List.range n) []
  have hdisj : ∀ h ∈ candidateGroups sim n, h ≠ g → ∀ x ∈ g, x ∉ h := by
    intro h hh hne
    exact List.Pairwise.forall hsym hpw hg hh (fun e => hne e.symm)
  refine ⟨?_, hdisj⟩
  intro h hh x hx
  have hhc : h ∈ candidateGroups sim n := clusterIdx_subset_candidates sim n ms h hh
  have hlen : ms ≤ h.length := clusterIdx_minSize sim n ms h hh
  have hne : h ≠ g := by
    intro e
    rw [e] at hlen
    omega
  exact hdisj h hhc hne x hx

theorem claim6_witness :
    (∀ h ∈ clusterIdx (fun _ _ => false) 2 3, ∀ x ∈ ([0] : List Nat), x ∉ h) ∧
    (∀ h ∈ candidateGroups (fun _ _ => false) 2, h ≠ [0] → ∀ x ∈ ([0] : List Nat), x ∉ h) :=
  claim6_small_candidate_fate (fun _ _ => false) 2 3 [0] (by decide) (by decide)

/-- Claim C8: the note text persisted to the store (the output of
`generateCommunityNote`) and the text handed to the publish call (`postReply`
truncates its input once more) are both at most 280 characters — the limit the
code enforces — and when the synthesized text starts with the literal
`**COMMUNITY NOTE**` tag, both truncated forms still start with it. -/
theorem claim8_truncation (orc : Oracle) (k : Nat) :
    (generateCommunityNote orc k).length ≤ 280 ∧
    (postReplyText (generateCommunityNote orc k)).length ≤ 280 ∧
    (noteTag.isPrefixOf (orc.rawNote k) = true →
      noteTag.isPrefixOf (generateCommunityNote orc k) = true ∧
      noteTag.isPrefixOf (postReplyText (generateCommunityNote orc k)) = true) := by
  unfold generateCommunityNote postReplyText
  by_cases hf : orc.genFails k = true
  · rw [if_pos hf]
    exact ⟨by decide, truncate280_length _, fun _ => ⟨by decide, truncate280_tag _ (by decide)⟩⟩
  · rw [if_neg hf]
    exact ⟨truncate280_length _, truncate280_length _,
      fun h => ⟨truncate280_tag _ h, truncate280_tag _ (truncate280_tag _ h)⟩⟩

theorem claim8_witness :
    (generateCommunityNote orcLong 0).length ≤ 280 ∧
    (postReplyText (generateCommunityNote orcLong 0)).length ≤ 280 ∧
    noteTag.isPrefixOf (generateCommunityNote orcLong 0) = true ∧
    noteTag.isPrefixOf (postReplyText (generateCommunityNote orcLong 0)) = true := by
  have h := claim8_truncation orcLong 0
  have htag := h.2.2 (by decide)
  exact ⟨h.1, h.2.1, htag.1, htag.2⟩

/-- Claim C9 counterexample: a comment whose stored embedding has a different
(shorter) length than the others is not excluded from clustering: the
similarity loop runs over the seed's indices only, so the malformed seed
`[1]` gets the finite prefix similarity `1` with each `[1,0]` comment and the
group `[mBad, wOne, wTwo, wThree]` is emitted containing the malformed
comment. -/
theorem claim9_counterexample :
    mBad.embedding.length ≠ wOne.embedding.length ∧
    similarCommentGroups [mBad, wOne, wTwo, wThree] SIMILARITY_THRESHOLD MIN_COMMENTS_FOR_NOTE
      = [[mBad, wOne, wTwo, wThree]] := by decide

/-- Claim C9 amended: a non-finite similarity is treated as "not similar"
(`NaN >= threshold` is false), so a comment whose similarity with a group's
seed is `NaN` — in particular one whose embedding is shorter than the seed's —
is never added to that group as a member, and no error aborts the rest of the
post; but such a comment is not excluded from clustering altogether: it can
itself seed an emitted group, because a candidate embedding longer than the
seed's is read only up to the seed's length, yielding a finite similarity. -/
theorem claim9_nan_not_similar (cs : List Comment) (t : ℚ) (ms : Nat) :
    (∀ a b : List ℚ, cosineSimilarity a b = none → simGE (cosineSimilarity a b) t = false) ∧
    (∀ g ∈ clusterIdx (simIdx cs t) cs.length ms, ∃ i r, g = i :: r ∧
      ∀ j ∈ r, simIdx cs t i j = true ∧
        ∀ ca cb : Comment, cs[i]? = some ca → cs[j]? = some cb →
          ¬ cb.embedding.length < ca.embedding.length) := by
  constructor
  · intro a b h
    rw [h]
    rfl
  · intro g hg
    have hc : g ∈ candidateGroups (simIdx cs t) cs.length :=
      clusterIdx_subset_candidates (simIdx cs t) cs.length ms g hg
    rcases candidateLoop_shape (simIdx cs t) (List.range cs.length) [] g hc with
      ⟨i, r, rfl, hsim⟩
    refine ⟨i, r, rfl, fun j hj => ⟨hsim j hj, ?_⟩⟩
    intro ca cb hca hcb hlt
    have h2 := hsim j hj
    simp only [simIdx, hca, hcb] at h2
    rw [cosineSimilarity_none_of_short _ _ hlt] at h2
    exact absurd h2 (by simp [simGE])

theorem claim9_witness :
    ∃ i r, ([0, 1, 2, 3] : List Nat) = i :: r ∧
      ∀ j ∈ r, simIdx [mBad, wOne, wTwo, wThree] SIMILARITY_THRESHOLD i j = true ∧
        ∀ ca cb : Comment, ([mBad, wOne, wTwo, wThree] : List Comment)[i]? = some ca →
          ([mBad, wOne, wTwo, wThree] : List Comment)[j]? = some cb →
          ¬ cb.embedding.length < ca.embedding.length :=
  (claim9_nan_not_similar [mBad, wOne, wTwo, wThree] SIMILARITY_THRESHOLD
    MIN_COMMENTS_FOR_NOTE).2 [0, 1, 2, 3] (by decide)

/-- Claim C10: when the remote existing-annotation check fails — no session
and login fails, or the profile/thread query throws — `hasExistingNoteForPost`
returns `false` instead of propagating the error, and the pipeline then treats
the post exactly like one with no existing annotation: it does not skip, and
performs one publish call per emitted group. -/
theorem claim10_failed_check_false (r : Remote) (w : List String) (uri : String)
    (hfail : (!r.sessionActive && !r.loginOk) = true ∨ r.queryOk = false) :
    hasExistingNoteForPost r w uri = false ∧
    ∀ (orc : Oracle) (cid : String) (st : Store), orc.remote = r →
      (processOnePost orc uri cid st w).attempts
        = (similarCommentGroups (getAllCommentsForPost (deleteCommunityNotesForPost st uri) uri)
            SIMILARITY_THRESHOLD MIN_COMMENTS_FOR_NOTE).length := by
  have hfalse : hasExistingNoteForPost r w uri = false := by
    unfold hasExistingNoteForPost
    rcases hfail with h | h
    · rw [if_pos h]
    · by_cases h2 : (!r.sessionActive && !r.loginOk) = true
      · rw [if_pos h2]
      · rw [if_neg h2, if_pos (by simp [h])]
  refine ⟨hfalse, ?_⟩
  intro orc cid st horc
  simp only [processOnePost, horc, hfalse, Bool.false_eq_true, if_false,
    apply_ite RunResult.attempts, ite_self]
  rw [publishGroups_att, Nat.zero_add]

theorem claim10_witness :
    hasExistingNoteForPost (Remote.mk true true false) [] "p" = false ∧
    (processOnePost orcNoRemote "p" "pc" stThree []).attempts
      = (similarCommentGroups (getAllCommentsForPost (deleteCommunityNotesForPost stThree "p") "p")
          SIMILARITY_THRESHOLD MIN_COMMENTS_FOR_NOTE).length := by
  have h := claim10_failed_check_false (Remote.mk true true false) [] "p" (Or.inr rfl)
  exact ⟨h.1, h.2 orcNoRemote "pc" stThree rfl⟩

/-- Claim C1 counterexample: a first invocation of the per-post processing
publishes successfully and writes a PostRecord; a second sequential invocation
whose remote thread query throws nevertheless performs another publish call
(`attempts` and `published` are positive).  No code path consults the ledger
before clustering, so the existing PostRecord does not stop the second
invocation: the claimed step-1 ledger short-circuit does not exist. -/
theorem claim1_counterexample :
    0 < (processOnePost orcOK "p" "pc" stThree []).published ∧
    isPostProcessed (processOnePost orcOK "p" "pc" stThree []).store "p" = true ∧
    0 < (processOnePost orcNoRemote "p" "pc" (processOnePost orcOK "p" "pc" stThree []).store
        (processOnePost orcOK "p" "pc" stThree []).world).attempts ∧
    0 < (processOnePost orcNoRemote "p" "pc" (processOnePost orcOK "p" "pc" stThree []).store
        (processOnePost orcOK "p" "pc" stThree []).world).published := by decide

/-- Claim C1 amended: after a first invocation that published at least one
annotation, a second sequential invocation performs no publish call provided
its remote existing-note check is healthy — the successful publish left an own
reply on the post, and it is this remote check (not the ledger: no code path
consults `processed_posts` before clustering, and the `/process-post` route
never writes it) that stops the second invocation before clustering or
publishing.  The same holds when the second invocation arrives through the
`/process-post` route, which rejects with its already-noted response. -/
theorem claim1_remote_skip (orc1 orc2 : Oracle) (uri cid1 cid2 : String) (st : Store)
    (w : List String) (hh : remoteHealthy orc2.remote = true)
    (hpub : 0 < (processOnePost orc1 uri cid1 st w).published) :
    (processOnePost orc2 uri cid2 (processOnePost orc1 uri cid1 st w).store
        (processOnePost orc1 uri cid1 st w).world).attempts = 0 ∧
    (processPostRoute orc2 uri (processOnePost orc1 uri cid1 st w).store
        (processOnePost orc1 uri cid1 st w).world).1 = RouteStatus.alreadyNoted ∧
    (processPostRoute orc2 uri (processOnePost orc1 uri cid1 st w).store
        (processOnePost orc1 uri cid1 st w).world).2.attempts = 0 := by
  have hw := processOnePost_world_of_pub orc1 uri cid1 st w hpub
  have hcheck : hasExistingNoteForPost orc2.remote
      (processOnePost orc1 uri cid1 st w).world uri = true := by
    rw [hasExistingNoteForPost_healthy _ _ _ hh]
    exact contains_eq_true_of_mem hw
  generalize hG : processOnePost orc1 uri cid1 st w = R1 at hcheck ⊢
  refine ⟨?_, ?_, ?_⟩
  · unfold processOnePost
    rw [hcheck, if_pos rfl]
    by_cases h2 : isPostProcessed R1.store uri = true
    · rw [if_pos h2]
    · rw [if_neg h2]
  · unfold processPostRoute
    rw [hcheck, if_pos rfl]
  · unfold processPostRoute
    rw [hcheck, if_pos rfl]

theorem claim1_witness :
    (processOnePost orcOK "p" "pc" (processOnePost orcOK "p" "pc" stThree []).store
        (processOnePost orcOK "p" "pc" stThree []).world).attempts = 0 ∧
    (processPostRoute orcOK "p" (processOnePost orcOK "p" "pc" stThree []).store
        (processOnePost orcOK "p" "pc" stThree []).world).1 = RouteStatus.alreadyNoted ∧
    (processPostRoute orcOK "p" (processOnePost orcOK "p" "pc" stThree []).store
        (processOnePost orcOK "p" "pc" stThree []).world).2.attempts = 0 :=
  claim1_remote_skip orcOK orcOK "p" "pc" "pc" stThree [] (by decide) (by decide)

/-- Claim C2 counterexample: invoking the `/process-post` route on a post that
already carries an own reply on the remote platform performs zero publish
calls but writes no PostRecord at all — the route returns its already-noted
rejection without touching the ledger, so the claimed `annotationCount = 1`
record is never created on this path. -/
theorem claim2_counterexample :
    (processPostRoute orcOK "p" stEmpty ["p"]).1 = RouteStatus.alreadyNoted ∧
    (processPostRoute orcOK "p" stEmpty ["p"]).2.attempts = 0 ∧
    ¬ ∃ rec ∈ (processPostRoute orcOK "p" stEmpty ["p"]).2.store.posts,
        rec.uri = "p" := by decide

/-- Claim C2 amended: when the remote platform shows an own reply and the
check is healthy, the periodic pipeline's per-post processing performs zero
publish calls and appends a PostRecord with `noteCount = 1` when none exists
(leaving comments and notes untouched), then stops; the `/process-post` route
also performs zero publish calls but rejects the request without writing any
PostRecord — its store is returned unchanged. -/
theorem claim2_remote_note_record (orc : Oracle) (uri cid : String) (st : Store)
    (w : List String) (hh : remoteHealthy orc.remote = true) (hw : w.contains uri = true)
    (hnp : isPostProcessed st uri = false) :
    (processOnePost orc uri cid st w).attempts = 0 ∧
    (processOnePost orc uri cid st w).published = 0 ∧
    (processOnePost orc uri cid st w).store.posts
      = st.posts ++ [⟨uri, cid, orc.recordTime, 1⟩] ∧
    (processOnePost orc uri cid st w).store.notes = st.notes ∧
    (processOnePost orc uri cid st w).store.comments = st.comments ∧
    processPostRoute orc uri st w = (RouteStatus.alreadyNoted, ⟨st, w, 0, 0⟩) := by
  have hcheck : hasExistingNoteForPost orc.remote w uri = true := by
    rw [hasExistingNoteForPost_healthy _ _ _ hh]
    exact hw
  have hres : processOnePost orc uri cid st w
      = ⟨markPostAsProcessed st uri cid orc.recordTime 1, w, 0, 0⟩ := by
    simp [processOnePost, hcheck, hnp]
  have hfilter : st.posts.filter (fun p => p.uri ≠ uri) = st.posts := by
    rw [List.filter_eq_self]
    intro p hp
    have hne := List.any_eq_false.mp hnp p hp
    simpa using hne
  rw [hres]
  refine ⟨rfl, rfl, ?_, rfl, rfl, ?_⟩
  · show st.posts.filter (fun p => p.uri ≠ uri) ++ [⟨uri, cid, orc.recordTime, 1⟩] = _
    rw [hfilter]
  · simp [processPostRoute, hcheck]

theorem claim2_witness :
    (processOnePost orcOK "p" "pc" stThree ["p"]).attempts = 0 ∧
    (processOnePost orcOK "p" "pc" stThree ["p"]).published = 0 ∧
    (processOnePost orcOK "p" "pc" stThree ["p"]).store.posts
      = stThree.posts ++ [⟨"p", "pc", orcOK.recordTime, 1⟩] ∧
    (processOnePost orcOK "p" "pc" stThree ["p"]).store.notes = stThree.notes ∧
    (processOnePost orcOK "p" "pc" stThree ["p"]).store.comments = stThree.comments ∧
    processPostRoute orcOK "p" stThree ["p"] = (RouteStatus.alreadyNoted, ⟨stThree, ["p"], 0, 0⟩) :=
  claim2_remote_note_record orcOK "p" "pc" stThree ["p"] (by decide) (by decide) (by decide)

/-- Fixture: an already posted annotation for post `"p"`. -/
def postedNote : CommunityNote :=
  ⟨"old", "p", "pc", "**COMMUNITY NOTE** old note".toList, ["c9"], "t0", true⟩

/-- Fixture: an annotation stored for a different post `"q"`. -/
def otherNote : CommunityNote :=
  ⟨"oldq", "q", "qc", "**COMMUNITY NOTE** other".toList, [], "t0", false⟩

/-- Fixture: a store whose only notes are a posted note for `"p"` and a note
for the unrelated post `"q"`. -/
def stMixed : Store := ⟨[], [postedNote, otherNote], []⟩

/-- Fixture: a store holding only the posted note for `"p"`. -/
def stPosted : Store := ⟨[], [postedNote], []⟩

/-- Claim C7 counterexample: when the per-post processing reaches the discard
step (no PostRecord consulted, no remote annotation found), it deletes the
posted annotation for the post as well — `deleteCommunityNotesForPost` has no
`posted` condition — so an Annotation with `posted = true` for that postRef is
not left unchanged. -/
theorem claim7_counterexample :
    postedNote.posted = true ∧
    postedNote.originalPostUri = "p" ∧
    postedNote ∈ stPosted.notes ∧
    (processOnePost orcOK "p" "pc" stPosted []).store.notes = [] := by decide

/-- Claim C7 amended: when the per-post processing takes the no-existing-note
path, the discard step removes exactly the stored Annotations for that
postRef — all of them, posted or not — while Annotations for every other post
survive the entire invocation unchanged (assuming the freshly generated note
ids do not collide with stored notes of other posts, as the
timestamp-plus-random scheme ensures). -/
theorem claim7_discard_frame (orc : Oracle) (uri cid : String) (st : Store) (w : List String)
    (hcheck : hasExistingNoteForPost orc.remote w uri = false)
    (hfresh : ∀ (j : Nat) (m : CommunityNote), m ∈ st.notes → m.originalPostUri ≠ uri →
      m.id ≠ orc.noteId j) :
    (∀ n ∈ st.notes, n.originalPostUri = uri →
      n ∉ (deleteCommunityNotesForPost st uri).notes) ∧
    (∀ n : CommunityNote, n.originalPostUri ≠ uri →
      (n ∈ (processOnePost orc uri cid st w).store.notes ↔ n ∈ st.notes)) := by
  refine ⟨fun n _ heq => deleteCommunityNotesForPost_gone st uri n heq, ?_⟩
  intro n hn
  have hfresh1 : ∀ (j : Nat) (m : CommunityNote),
      m ∈ (deleteCommunityNotesForPost st uri).notes → m.originalPostUri ≠ uri →
      m.id ≠ orc.noteId j := by
    intro j m hm hmu
    exact hfresh j m (List.mem_of_mem_filter hm) hmu
  have hstore : (processOnePost orc uri cid st w).store.notes
      = (publishGroups orc uri (fun _ => cid)
          (similarCommentGroups (getAllCommentsForPost (deleteCommunityNotesForPost st uri) uri)
            SIMILARITY_THRESHOLD MIN_COMMENTS_FOR_NOTE)
          0 (deleteCommunityNotesForPost st uri) w 0 0).store.notes := by
    simp only [processOnePost, hcheck, Bool.false_eq_true, if_false,
      apply_ite (fun rr : RunResult => rr.store.notes), markPostAsProcessed_notes, ite_self]
  rw [hstore,
    publishGroups_notes_frame orc uri (fun _ => cid) _ 0 _ w 0 0 hfresh1 n hn,
    deleteCommunityNotesForPost_frame st uri n hn]

theorem claim7_witness :
    (∀ n ∈ stMixed.notes, n.originalPostUri = "p" →
      n ∉ (deleteCommunityNotesForPost stMixed "p").notes) ∧
    (∀ n : CommunityNote, n.originalPostUri ≠ "p" →
      (n ∈ (processOnePost orcOK "p" "pc" stMixed []).store.notes ↔ n ∈ stMixed.notes)) :=
  claim7_discard_frame orcOK "p" "pc" stMixed [] (by decide)
    (by
      intro j m hm hmu
      have hm2 : m ∈ [postedNote, otherNote] := hm
      rcases List.mem_cons.mp hm2 with rfl | hm3
      · show postedNote.id ≠ "n1"
        decide
      · rcases List.mem_cons.mp hm3 with rfl | hm4
        · show otherNote.id ≠ "n1"
          decide
        · exact absurd hm4 (List.not_mem_nil m))

end CommunityNotes
